import Mathlib

/-!
# Verification of the memento editor storage core

A shallow embedding, in Lean 4, of the storage / encryption / autosave core of
the `memento_editor` repository:

* `constants.py` — `calculate_buffer_size` (the ring-buffer capacity policy);
* `encryption.py` — `EncryptionManager.encrypt_data` / `decrypt_data` /
  `derive_aes_key` (the compress-then-encrypt codec);
* `storage.py` — `FileManager` (control record, ring-buffer snapshot slots,
  passphrase handling, the write/load operations);
* `autosave.py` — `IdleSaver` (the idle / character-count autosave scheduler).

Modelling conventions:

* Byte strings are `List ℕ`.  `str.encode('utf-8')` is modelled as the list of
  Unicode code points of the string (an injective encoding with an explicit
  decoder); the byte-level UTF-8 details are irrelevant to the verified claims.
* `brotli.compress` / `brotli.decompress` (an external lossless codec) are
  modelled as the identity transform on byte lists; the claims rely only on
  the codec being lossless.
* `AESGCM.encrypt(nonce, data, None)` from the `cryptography` library is
  modelled as an ideal authenticated cipher: the produced blob records the
  nonce (the source prepends the 12-byte nonce to the ciphertext), the key it
  was encrypted under, and the compressed payload; `AESGCM.decrypt` succeeds
  exactly when it is given the same key (AEAD authenticity) and otherwise
  raises, which the embedding renders as `Option`.
* `PBKDF2HMAC.derive` is modelled as an ideal key-derivation function,
  injective in the passphrase for a fixed salt (the derived key is the encoded
  passphrase followed by the salt).
* Python floats in `calculate_buffer_size` are evaluated as exact rationals
  (`ℚ`); `int(...)` on a positive float is `Int.floor` followed by `toNat`.
* Exceptions are rendered as `Option` / `Except`; a Python `try/except` block
  that swallows an exception corresponds to consuming the `none` case.
* Wall-clock timestamps (`time.time()`) are passed in explicitly as `ℚ`
  parameters; fields of the control record that only hold timestamps
  (`created_timestamp`, `last_modified`) play no part in any claim and are
  elided from the state.
* `os.urandom(12)` nonces are passed in explicitly; distinct calls are
  modelled by distinct nonce arguments.
-/

/-- `str.encode('utf-8')`, modelled as the list of Unicode code points. -/
def utf8Encode (s : String) : List ℕ :=
  s.data.map Char.toNat

/-- `bytes.decode('utf-8')`, the inverse of `utf8Encode`. -/
def utf8Decode (b : List ℕ) : String :=
  String.mk (b.map Char.ofNat)

/-- `brotli.compress(data, quality=6)`: an external lossless codec, modelled as
the identity on byte lists. -/
def brotliCompress (data : List ℕ) : List ℕ := data

/-- `brotli.decompress(data)`: inverse of `brotliCompress`. -/
def brotliDecompress (data : List ℕ) : List ℕ := data

/-- The blob produced by `EncryptionManager.encrypt_data`: the source returns
`nonce + ciphertext` where `ciphertext = AESGCM(aes_key).encrypt(nonce,
compressed, None)`.  The ideal-cipher model records the 12-byte nonce prefix,
the key the AEAD cipher was keyed with, and the compressed payload. -/
structure EncBlob where
  nonce : List ℕ
  key : List ℕ
  payload : List ℕ
deriving DecidableEq, Repr

/-- `EncryptionManager.derive_aes_key(passphrase, salt)` (encryption.py:174-185):
PBKDF2-SHA256, 100000 iterations, 32-byte output — an ideal KDF, injective in
the passphrase for a fixed salt. -/
def derive_aes_key (passphrase : String) (salt : List ℕ) : List ℕ :=
  utf8Encode passphrase ++ salt

/-- `EncryptionManager.encrypt_data(data, aes_key)` (encryption.py:187-201):
compress with brotli, then AES-GCM-encrypt under a fresh 12-byte nonce, and
return `nonce + ciphertext`.  The nonce drawn by `os.urandom(12)` is an
explicit argument. -/
def encrypt_data (data : String) (aes_key : List ℕ) (nonce : List ℕ) : EncBlob :=
  { nonce := nonce
    key := aes_key
    payload := brotliCompress (utf8Encode data) }

/-- `EncryptionManager.decrypt_data(encrypted_data, aes_key)`
(encryption.py:203-217): split the 12-byte nonce off the front, AES-GCM-decrypt
the remainder, decompress.  AEAD authentication fails (the source raises
`InvalidTag`) exactly when the key differs from the one the blob was encrypted
under; failure is rendered as `none`. -/
def decrypt_data (encrypted_data : EncBlob) (aes_key : List ℕ) : Option String :=
  if encrypted_data.key = aes_key then
    some (utf8Decode (brotliDecompress encrypted_data.payload))
  else
    none

/-- `MIN_BUFFER_SIZE` (constants.py:27). -/
def MIN_BUFFER_SIZE : ℕ := 3

/-- `MAX_BUFFER_SIZE` (constants.py:28). -/
def MAX_BUFFER_SIZE : ℕ := 50

/-- `BASE_FILE_SIZE_KB` (constants.py:29). -/
def BASE_FILE_SIZE_KB : ℕ := 1024

/-- `calculate_buffer_size(text_size_bytes)` (constants.py:55-60):
`size_kb = text_size_bytes / 1024` and
`max(MIN_BUFFER_SIZE, min(MAX_BUFFER_SIZE, int(BASE_FILE_SIZE_KB / max(size_kb, 1))))`,
with the float arithmetic evaluated exactly in `ℚ` (`int` of a positive value
is the floor). -/
def calculate_buffer_size (text_size_bytes : ℕ) : ℕ :=
  max MIN_BUFFER_SIZE (min MAX_BUFFER_SIZE
    (⌊(BASE_FILE_SIZE_KB : ℚ) / max ((text_size_bytes : ℚ) / 1024) 1⌋).toNat)

/-- A file stored in an `{index}.enc` slot.  Normally an encrypted blob, but
`_write_snapshot_at_index` writes plain UTF-8 text to the `.enc` path when the
memento is flagged encrypted and no AES key is loaded (storage.py:278-290). -/
inductive SlotFile where
  | txt (s : String)
  | enc (b : EncBlob)
deriving DecidableEq, Repr

/-- The state of `storage.FileManager` (storage.py:35-59): the control-record
fields (`current_index`, `max_buffers`, `is_encrypted`), the in-memory
encryption session (`aes_key`, `current_passphrase`), and the on-disk snapshot
slots of the memento directory.  `txt_files i` is the content of `{i}.txt`
(always UTF-8 text), `enc_files i` the content of `{i}.enc`; `none` means the
file does not exist.  The purely informational timestamps are elided. -/
structure FileManager where
  memento_id : ℕ
  current_index : ℕ
  max_buffers : ℕ
  is_encrypted : Bool
  aes_key : Option (List ℕ)
  current_passphrase : Option String
  txt_files : ℕ → Option String
  enc_files : ℕ → Option SlotFile

/-- `FileManager.__init__` for a memento with no control file and no snapshot
files on disk (storage.py:38-59): `current_index = 0`, `max_buffers = 10`,
unencrypted, no key loaded. -/
def mkFileManager (memento_id : ℕ) : FileManager :=
  { memento_id := memento_id
    current_index := 0
    max_buffers := 10
    is_encrypted := false
    aes_key := none
    current_passphrase := none
    txt_files := fun _ => none
    enc_files := fun _ => none }

/-- `FileManager.__init__` for a memento whose control file recorded
`current_index = 0` and `max_buffers = cap` and whose directory holds no
snapshot files yet (storage.py:61-74): a fresh ring buffer of fixed
capacity `cap`. -/
def mkFileManagerWithCapacity (memento_id cap : ℕ) : FileManager :=
  { mkFileManager memento_id with max_buffers := cap }

/-- The salt computed by `FileManager._prepare_aes_key` (storage.py:137):
`str(self.memento_id).encode().ljust(32, b'\x00')[:32]`. -/
def salt_for (memento_id : ℕ) : List ℕ :=
  (utf8Encode (toString memento_id) ++ List.replicate 32 0).take 32

/-- `FileManager._prepare_aes_key(passphrase)` (storage.py:131-139): derive the
AES key from the passphrase with the memento-id salt and remember both. -/
def prepare_aes_key (fm : FileManager) (passphrase : String) : FileManager :=
  { fm with
    aes_key := some (derive_aes_key passphrase (salt_for fm.memento_id))
    current_passphrase := some passphrase }

/-- `FileManager._load_snapshot_at_index(index)` (storage.py:296-314).  The
snapshot path is `{index}.enc` when encrypted, else `{index}.txt`; a missing
file yields `None`; with a loaded key the bytes are AES-GCM decrypted and
decompressed; without the encrypted branch the file is read as UTF-8 text.
Every exception (decryption failure, UTF-8 decode failure of binary data) is
caught and turned into `None` by the source's blanket `except` clause. -/
def load_snapshot_at_index (fm : FileManager) (index : ℕ) : Option String :=
  if fm.is_encrypted then
    match fm.enc_files index, fm.aes_key with
    | none, _ => none
    | some (SlotFile.enc b), some key => decrypt_data b key
    | some (SlotFile.txt _), some _ => none
    | some (SlotFile.txt s), none => some s
    | some (SlotFile.enc _), none => none
  else
    fm.txt_files index

/-- `FileManager.load_current_snapshot()` (storage.py:292-294): the slot at
`current_index`, with a miss turned into the empty string. -/
def load_current_snapshot (fm : FileManager) : String :=
  (load_snapshot_at_index fm fm.current_index).getD ""

/-- `FileManager.load_snapshot(version_offset)` (storage.py:316-323): reads the
slot at `(current_index + version_offset) % max_buffers`, with Python's
nonnegative remainder for a positive modulus. -/
def load_snapshot (fm : FileManager) (version_offset : ℤ) : Option String :=
  load_snapshot_at_index fm
    (((fm.current_index : ℤ) + version_offset) % (fm.max_buffers : ℤ)).toNat

/-- `FileManager.verify_passphrase(passphrase)` (storage.py:141-154).  For an
unencrypted memento it returns `True` immediately.  Otherwise the source
wraps `_prepare_aes_key` and `load_current_snapshot()` in `try/except` and
returns `True` when no exception escapes.  `_prepare_aes_key` only raises when
the encryption manager is unavailable (it is modelled as available), and
`load_current_snapshot` catches every exception internally (storage.py:313),
so the `except` branch that returns `False` is unreachable: the function
returns `True` with the trial key left loaded. -/
def verify_passphrase (fm : FileManager) (passphrase : String) : Bool × FileManager :=
  if ¬fm.is_encrypted then
    (true, fm)
  else
    let fm1 := prepare_aes_key fm passphrase
    let _content := load_current_snapshot fm1
    (true, fm1)

/-- `FileManager._adjust_buffer_size(text_size)` (storage.py:237-258): no-op if
the recomputed capacity equals `max_buffers` or `current_index` is within 2 of
either boundary; growing only updates the count; shrinking unlinks the slots
`[new_buffer_size, max_buffers)` of the active snapshot family first. -/
def adjust_buffer_size (fm : FileManager) (text_size : ℕ) : FileManager :=
  let new_buffer_size := calculate_buffer_size text_size
  if new_buffer_size = fm.max_buffers then
    fm
  else if fm.current_index < 2 ∨ fm.max_buffers - 2 ≤ fm.current_index then
    fm
  else if fm.max_buffers < new_buffer_size then
    { fm with max_buffers := new_buffer_size }
  else if fm.is_encrypted then
    { fm with
      max_buffers := new_buffer_size
      enc_files := fun i =>
        if new_buffer_size ≤ i ∧ i < fm.max_buffers then none else fm.enc_files i }
  else
    { fm with
      max_buffers := new_buffer_size
      txt_files := fun i =>
        if new_buffer_size ≤ i ∧ i < fm.max_buffers then none else fm.txt_files i }

/-- `FileManager._write_snapshot_at_index(index, text)` (storage.py:278-290):
with encryption on and a key loaded, encrypt (under a fresh nonce) and write to
`{index}.enc`; otherwise write the plaintext to the snapshot path (which is
still `{index}.enc` when the memento is flagged encrypted but no key is
loaded). -/
def write_snapshot_at_index (fm : FileManager) (index : ℕ) (text : String)
    (nonce : List ℕ) : FileManager :=
  if fm.is_encrypted then
    match fm.aes_key with
    | some key =>
      { fm with
        enc_files := fun i =>
          if i = index then some (SlotFile.enc (encrypt_data text key nonce))
          else fm.enc_files i }
    | none =>
      { fm with
        enc_files := fun i =>
          if i = index then some (SlotFile.txt text) else fm.enc_files i }
  else
    { fm with
      txt_files := fun i => if i = index then some text else fm.txt_files i }

/-- `FileManager.write_snapshot(text)` (storage.py:260-276): adjust the buffer
size from the UTF-8 byte length, advance `current_index` by one modulo
`max_buffers`, then write the snapshot at the new index (the timestamp update
and control-file save carry no state the model tracks). -/
def write_snapshot (fm : FileManager) (text : String) (nonce : List ℕ) : FileManager :=
  let fm1 := adjust_buffer_size fm (utf8Encode text).length
  let fm2 := { fm1 with current_index := (fm1.current_index + 1) % fm1.max_buffers }
  write_snapshot_at_index fm2 fm2.current_index text nonce

/-- `FileManager.change_passphrase(old_passphrase, new_passphrase)`
(storage.py:207-235): reject if not encrypted; reject if
`verify_passphrase(old_passphrase)` returns `False`; collect every slot index
whose snapshot still loads (with the key `verify_passphrase` left loaded);
re-derive the key from the new passphrase; re-write each collected snapshot in
place (each with a fresh nonce, supplied here by `nonces`). -/
def change_passphrase (fm : FileManager) (old_passphrase new_passphrase : String)
    (nonces : ℕ → List ℕ) : Except String FileManager :=
  if ¬fm.is_encrypted then
    Except.error "Memento is not encrypted"
  else
    let v := verify_passphrase fm old_passphrase
    if ¬v.fst then
      Except.error "Invalid current passphrase"
    else
      let fm1 := v.snd
      let snapshots := (List.range fm1.max_buffers).filterMap fun i =>
        match load_snapshot_at_index fm1 i with
        | some content => some (i, content)
        | none => none
      let fm2 := prepare_aes_key fm1 new_passphrase
      Except.ok (snapshots.foldl
        (fun f p => write_snapshot_at_index f p.fst p.snd (nonces p.fst)) fm2)

/-- `FileManager.create_new_memento()` (storage.py:338-346): construct a fresh
`FileManager` for the next free id and write the initial empty snapshot. -/
def create_new_memento (memento_id : ℕ) : FileManager :=
  write_snapshot (mkFileManager memento_id) "" []

/-- `FileManager.load_memento(memento_id)` (storage.py:348-356): return `None`
when the memento's local directory does not exist, else a `FileManager` for
the id.  `local_dirs` lists the memento ids with a local directory;
`remote_ids` lists the memento ids present in the remote (MongoDB) store —
the source never consults it in `load_memento`. -/
def load_memento (local_dirs : List ℕ) (remote_ids : List ℕ)
    (memento_id : ℕ) : Option FileManager :=
  if memento_id ∈ local_dirs then some (mkFileManager memento_id) else none

/-- A sequence of `write_snapshot(text)` calls on an unencrypted memento (an
empty nonce, which the unencrypted write path ignores). -/
def write_all (fm : FileManager) (texts : List String) : FileManager :=
  texts.foldl (fun f t => write_snapshot f t []) fm

/-- `CHAR_COUNT_THRESHOLDS` (constants.py:23). -/
def CHAR_COUNT_THRESHOLDS : List ℕ := [2, 4, 8, 16, 32, 64]

/-- `INITIAL_CHAR_THRESHOLD` (constants.py:24). -/
def INITIAL_CHAR_THRESHOLD : ℕ := 2

/-- The state of `autosave.IdleSaver` (autosave.py:14-38): the activity flag,
the dynamic threshold table and current position in it, the character counter
since the last save, and the typing-session tracking used to adapt the
threshold.  Timer objects and the lock are concurrency plumbing with no
bearing on the threshold state and are not part of the model; wall-clock
times are `ℚ` parameters of the operations. -/
structure IdleSaver where
  active : Bool
  char_thresholds : List ℕ
  current_threshold_index : ℕ
  char_threshold : ℕ
  char_count_since_save : ℕ
  typing_sessions : List (ℕ × ℚ)
  session_start_time : Option ℚ
  session_char_count : ℕ

/-- `IdleSaver.__init__` (autosave.py:17-38). -/
def mkIdleSaver : IdleSaver :=
  { active := false
    char_thresholds := CHAR_COUNT_THRESHOLDS
    current_threshold_index := 0
    char_threshold := INITIAL_CHAR_THRESHOLD
    char_count_since_save := 0
    typing_sessions := []
    session_start_time := none
    session_char_count := 0 }

/-- `IdleSaver.start()` (autosave.py:40-43). -/
def IdleSaver.start (s : IdleSaver) : IdleSaver :=
  { s with active := true }

/-- `IdleSaver.stop()` (autosave.py:45-51); the cancelled timer is not part of
the state. -/
def IdleSaver.stop (s : IdleSaver) : IdleSaver :=
  { s with active := false }

/-- The `for i, threshold in enumerate(...)` loop of
`IdleSaver._adjust_threshold` (autosave.py:138-143): starting from index 0,
remember the index of each leading threshold the average reaches and stop at
the first it does not; the result is one less than the length of the leading
run of thresholds `≤ avg`, except that an empty run leaves the index at 0. -/
def find_threshold_index (avg : ℚ) (thresholds : List ℕ) : ℕ :=
  let leading := (thresholds.takeWhile (fun t : ℕ => decide ((t : ℚ) ≤ avg))).length
  if leading = 0 then 0 else leading - 1

/-- `IdleSaver._adjust_threshold()` (autosave.py:127-150): with fewer than 3
recorded sessions do nothing; otherwise compute the average characters per
session, find the matching threshold index, and install the threshold at that
index if it moved. -/
def adjust_threshold (s : IdleSaver) : IdleSaver :=
  if s.typing_sessions.length < 3 then
    s
  else
    let total_chars : ℕ := (s.typing_sessions.map Prod.fst).sum
    let avg_chars_per_session : ℚ := (total_chars : ℚ) / (s.typing_sessions.length : ℚ)
    let new_threshold_index := find_threshold_index avg_chars_per_session s.char_thresholds
    if new_threshold_index ≠ s.current_threshold_index then
      { s with
        current_threshold_index := new_threshold_index
        char_threshold := s.char_thresholds.getD new_threshold_index s.char_threshold }
    else
      s

/-- Appending a typing session: `typing_sessions.append(...)`, trimming to the
most recent 20, then `_adjust_threshold()` — the block shared by
`IdleSaver._process_session_data` (autosave.py:113-125) and the
character-count branch of `IdleSaver._trigger_save` (autosave.py:176-189). -/
def record_session (s : IdleSaver) (session : ℕ × ℚ) : IdleSaver :=
  let s1 := { s with typing_sessions := s.typing_sessions ++ [session] }
  let s2 :=
    if 20 < s1.typing_sessions.length then
      { s1 with typing_sessions :=
          s1.typing_sessions.drop (s1.typing_sessions.length - 20) }
    else
      s1
  adjust_threshold s2

/-- `IdleSaver._trigger_save(reason)` (autosave.py:152-202): do nothing when
inactive; otherwise invoke the save callback (modelled as succeeding, reported
in the returned reason list), zero the character counter, and — only for a
`"character count"` save with an open session of positive duration — record
the session and re-adjust the threshold, then reset the session tracking. -/
def trigger_save (s : IdleSaver) (reason : String) (now : ℚ) : IdleSaver × List String :=
  if ¬s.active then
    (s, [])
  else
    let s1 := { s with char_count_since_save := 0 }
    if reason = "character count" then
      match s1.session_start_time with
      | some session_start =>
        let session_duration := now - session_start
        let s2 :=
          if 0 < session_duration then
            record_session s1 (s1.session_char_count, session_duration)
          else
            s1
        ({ s2 with session_start_time := none, session_char_count := 0 }, [reason])
      | none => (s1, [reason])
    else
      (s1, [reason])

/-- `IdleSaver.update(char_added)` (autosave.py:53-90): ignore when inactive;
open a typing session on the first added character; count added characters,
and when the counter reaches `char_threshold` trigger an immediate
`"character count"` save (the debounce timer is concurrency plumbing outside
the model). -/
def IdleSaver.update (s : IdleSaver) (char_added : Bool) (now : ℚ) :
    IdleSaver × List String :=
  if ¬s.active then
    (s, [])
  else
    let s1 :=
      if char_added ∧ s.session_start_time = none then
        { s with session_start_time := some now, session_char_count := 0 }
      else
        s
    let s2 :=
      if char_added then
        { s1 with
          char_count_since_save := s1.char_count_since_save + 1
          session_char_count := s1.session_char_count + 1 }
      else
        s1
    if char_added ∧ s2.char_threshold ≤ s2.char_count_since_save then
      trigger_save s2 "character count" now
    else
      (s2, [])

/-- `IdleSaver._on_idle_timeout()` (autosave.py:92-111): record the open
typing session (if any characters were typed) via `_process_session_data`,
reset the session tracking, then trigger an `"idle timeout"` save. -/
def on_idle_timeout (s : IdleSaver) (now : ℚ) : IdleSaver × List String :=
  let s1 :=
    match s.session_start_time with
    | some session_start =>
      if 0 < s.session_char_count then
        record_session
          { s with session_start_time := none, session_char_count := 0 }
          (s.session_char_count, now - session_start)
      else
        s
    | none => s
  trigger_save s1 "idle timeout" now

/-- One editor-driven event fed to the scheduler. -/
inductive SaverEvent where
  | start
  | stop
  | edit (char_added : Bool) (now : ℚ)
  | idleTimeout (now : ℚ)

/-- Dispatch one scheduler event, accumulating the reasons of the saves
performed. -/
def saverStep (p : IdleSaver × List String) (e : SaverEvent) :
    IdleSaver × List String :=
  match e with
  | SaverEvent.start => (p.fst.start, p.snd)
  | SaverEvent.stop => (p.fst.stop, p.snd)
  | SaverEvent.edit b t =>
    let r := p.fst.update b t
    (r.fst, p.snd ++ r.snd)
  | SaverEvent.idleTimeout t =>
    let r := on_idle_timeout p.fst t
    (r.fst, p.snd ++ r.snd)

/-- Run a sequence of scheduler events from the freshly constructed saver,
collecting the reasons of the saves performed. -/
def runSaver (events : List SaverEvent) : IdleSaver × List String :=
  events.foldl saverStep (mkIdleSaver, [])

/-- The scheduler invariant behind the amended C8: the threshold table is the
constant `CHAR_COUNT_THRESHOLDS` and the current threshold is an element of
it. -/
def SaverInv (s : IdleSaver) : Prop :=
  s.char_thresholds = CHAR_COUNT_THRESHOLDS ∧
  s.char_threshold ∈ CHAR_COUNT_THRESHOLDS

/-- The capacity formula in the spec's words (spec §4.1):
`clamp(floor(BASE_KB / max(size_kb, 1)), MIN_CAPACITY, MAX_CAPACITY)` with
`BASE_KB = 1024`, `MIN_CAPACITY = 3`, `MAX_CAPACITY = 50` and
`size_kb = size_bytes / 1024`, over exact rationals.  `clamp(x, lo, hi)` is
`min hi (max lo x)`. -/
def capacity_for_spec (size_bytes : ℕ) : ℕ :=
  min 50 (max 3 (⌊(1024 : ℚ) / max ((size_bytes : ℚ) / 1024) 1⌋).toNat)

/-- A concrete encrypted memento for exercising `verify_passphrase`: memento 7,
one snapshot in slot 1 encrypted under the key derived from the passphrase
`"right"`, no key loaded in memory. -/
def fmC1 : FileManager :=
  { memento_id := 7
    current_index := 1
    max_buffers := 10
    is_encrypted := true
    aes_key := none
    current_passphrase := none
    txt_files := fun _ => none
    enc_files := fun i =>
      if i = 1 then
        some (SlotFile.enc (encrypt_data "secret"
          (derive_aes_key "right" (salt_for 7)) (List.replicate 12 0)))
      else
        none }

/-- A concrete encrypted memento for exercising `change_passphrase`: memento 9,
one snapshot in slot 1 encrypted under the key derived from the passphrase
`"right"`, no key loaded in memory. -/
def fmC2 : FileManager :=
  { memento_id := 9
    current_index := 1
    max_buffers := 10
    is_encrypted := true
    aes_key := none
    current_passphrase := none
    txt_files := fun _ => none
    enc_files := fun i =>
      if i = 1 then
        some (SlotFile.enc (encrypt_data "history"
          (derive_aes_key "right" (salt_for 9)) (List.replicate 12 0)))
      else
        none }

/-- `utf8Decode` undoes `utf8Encode`. -/
theorem utf8Decode_utf8Encode (s : String) : utf8Decode (utf8Encode s) = s := by
  unfold utf8Decode utf8Encode
  rw [List.map_map]
  have : (Char.ofNat ∘ Char.toNat) = id := by
    funext c
    exact Char.ofNat_toNat c
  rw [this, List.map_id]

/-- The rational floor computation at the heart of `calculate_buffer_size`
collapses to natural division of `2^20 = 1024 * 1024` by the byte size clamped
below at `1024`. -/
theorem calc_floor_eq (n : ℕ) :
    (⌊(1024 : ℚ) / max ((n : ℚ) / 1024) 1⌋).toNat = 2 ^ 20 / max n 1024 := by
  rcases le_or_lt n 1024 with h | h
  · have h1 : max ((n : ℚ) / 1024) 1 = 1 := by
      refine max_eq_right ?_
      rw [div_le_one (by norm_num)]
      exact_mod_cast h
    have h2 : max n 1024 = 1024 := max_eq_right h
    rw [h1, h2]
    norm_num
    decide
  · have h1 : max ((n : ℚ) / 1024) 1 = (n : ℚ) / 1024 := by
      refine max_eq_left ?_
      rw [le_div_iff₀ (by norm_num)]
      norm_num
      exact_mod_cast h.le
    have h2 : max n 1024 = n := max_eq_left h.le
    have h3 : (1024 : ℚ) / ((n : ℚ) / 1024) = ((2 ^ 20 : ℕ) : ℚ) / ((n : ℕ) : ℚ) := by
      rw [div_div_eq_mul_div]
      push_cast
      ring_nf
    rw [h1, h2, h3]
    rw [Int.floor_toNat, Nat.floor_div_nat ((2 ^ 20 : ℕ) : ℚ) n, Nat.floor_natCast]

/-- Closed form of `calculate_buffer_size` over `ℕ`. -/
theorem calculate_buffer_size_eq (n : ℕ) :
    calculate_buffer_size n = max 3 (min 50 (2 ^ 20 / max n 1024)) := by
  unfold calculate_buffer_size MIN_BUFFER_SIZE MAX_BUFFER_SIZE BASE_FILE_SIZE_KB
  rw [show ((1024 : ℕ) : ℚ) = (1024 : ℚ) from by norm_num, calc_floor_eq]

/-- The same closed form for the spec-side formula. -/
theorem capacity_for_spec_eq (n : ℕ) :
    capacity_for_spec n = min 50 (max 3 (2 ^ 20 / max n 1024)) := by
  unfold capacity_for_spec
  rw [calc_floor_eq]

theorem calculate_buffer_size_zero : calculate_buffer_size 0 = 50 := by
  rw [calculate_buffer_size_eq]
  decide

theorem calculate_buffer_size_one : calculate_buffer_size 1 = 50 := by
  rw [calculate_buffer_size_eq]
  decide

theorem three_le_calculate_buffer_size (n : ℕ) : 3 ≤ calculate_buffer_size n := by
  rw [calculate_buffer_size_eq]
  exact le_max_left _ _

/-- **C3**: for every UTF-8 string `s` (including the empty string and large
repetitive text), every key `k` and every nonce, `decrypt_data` applied to
`encrypt_data s k` with the same key `k` returns `s` (the source returns the
string; failure would be an exception, i.e. `none` here). -/
theorem encrypt_decrypt_roundtrip (s : String) (k nonce : List ℕ) :
    decrypt_data (encrypt_data s k nonce) k = some s := by
  simp [decrypt_data, encrypt_data, brotliCompress, brotliDecompress,
    utf8Decode_utf8Encode]

/-- **C4**: two calls of `encrypt_data` on the identical plaintext and key
produce different byte outputs, because each call draws a fresh 12-byte nonce
(modelled as the two distinct nonce arguments) and the nonce is part of the
output. -/
theorem encrypt_data_distinct_nonces_distinct_output (s : String)
    (k n1 n2 : List ℕ) (h : n1 ≠ n2) :
    encrypt_data s k n1 ≠ encrypt_data s k n2 :=
  fun he => h (congrArg EncBlob.nonce he)

/-- Witness for **C4** at a concrete input. -/
theorem encrypt_data_distinct_nonces_distinct_output_witness :
    List.replicate 12 0 ≠ List.replicate 12 1 ∧
    encrypt_data "same text" [7] (List.replicate 12 0) ≠
      encrypt_data "same text" [7] (List.replicate 12 1) :=
  ⟨by decide,
   encrypt_data_distinct_nonces_distinct_output "same text" [7] _ _ (by decide)⟩

/-- **C7**: `calculate_buffer_size` agrees with the spec's clamp formula,
always lies within `[3, 50]`, and is monotonically non-increasing. -/
theorem calculate_buffer_size_clamp_bounds_mono (a b : ℕ) (hab : a ≤ b) :
    calculate_buffer_size a = capacity_for_spec a ∧
    3 ≤ calculate_buffer_size a ∧
    calculate_buffer_size a ≤ 50 ∧
    calculate_buffer_size b ≤ calculate_buffer_size a := by
  have hdiv : 2 ^ 20 / max b 1024 ≤ 2 ^ 20 / max a 1024 :=
    Nat.div_le_div_left (max_le_max hab le_rfl) (by omega)
  rw [calculate_buffer_size_eq, calculate_buffer_size_eq, capacity_for_spec_eq]
  omega

/-- Witness for **C7** at a concrete input. -/
theorem calculate_buffer_size_clamp_bounds_mono_witness :
    0 ≤ 2048 ∧
    (calculate_buffer_size 0 = capacity_for_spec 0 ∧
     3 ≤ calculate_buffer_size 0 ∧
     calculate_buffer_size 0 ≤ 50 ∧
     calculate_buffer_size 2048 ≤ calculate_buffer_size 0) :=
  ⟨by omega, calculate_buffer_size_clamp_bounds_mono 0 2048 (by omega)⟩

/-- **C9**, corrected: `load_memento` returns `None` exactly when the
memento's directory does not exist locally; the remote store is never
consulted. -/
theorem load_memento_none_iff_local_absent (local_dirs remote_ids : List ℕ)
    (memento_id : ℕ) :
    (load_memento local_dirs remote_ids memento_id).isNone ↔
      memento_id ∉ local_dirs := by
  unfold load_memento
  by_cases h : memento_id ∈ local_dirs <;> simp [h]

/-- **C9**, counterexample to the claim as stated: for a memento that exists
only in the remote store (no local directory, id present remotely),
`load_memento` still returns `None`, so "`None` exactly when absent locally
AND absent remotely" fails. -/
theorem load_memento_remote_only_still_none :
    ¬ (((load_memento [] [5] 5).isNone = true) ↔ (5 ∉ ([] : List ℕ) ∧ 5 ∉ [5])) := by
  decide

/-- **C1** (code bug, concrete evaluation): on the encrypted memento `fmC1`
whose only snapshot decrypts under the passphrase `"right"` but not under
`"wrong"`, `verify_passphrase "wrong"` still returns `True` — the attempted
decrypt fails, but `_load_snapshot_at_index` swallows the failure and
`load_current_snapshot` returns `""`, so no exception ever reaches
`verify_passphrase`'s `except` branch. -/
theorem verify_passphrase_accepts_wrong_passphrase :
    (verify_passphrase fmC1 "wrong").fst = true ∧
    decrypt_data (encrypt_data "secret" (derive_aes_key "right" (salt_for 7))
        (List.replicate 12 0)) (derive_aes_key "right" (salt_for 7)) =
      some "secret" ∧
    decrypt_data (encrypt_data "secret" (derive_aes_key "right" (salt_for 7))
        (List.replicate 12 0)) (derive_aes_key "wrong" (salt_for 7)) = none ∧
    load_current_snapshot (verify_passphrase fmC1 "wrong").snd = "" := by
  decide

/-- **C2** (code bug, concrete evaluation): on the encrypted memento `fmC2`
whose only snapshot decrypts under `"right"` but not under `"wrong"`,
`change_passphrase "wrong" "newpass"` succeeds instead of failing with the
invalid-passphrase error (because `verify_passphrase` never returns `False`),
re-encrypts nothing, and leaves the slot unreadable under the newly loaded
key. -/
theorem change_passphrase_accepts_wrong_old_passphrase :
    (change_passphrase fmC2 "wrong" "newpass" (fun _ => List.replicate 12 1)).isOk
        = true ∧
    decrypt_data (encrypt_data "history" (derive_aes_key "right" (salt_for 9))
        (List.replicate 12 0)) (derive_aes_key "right" (salt_for 9)) =
      some "history" ∧
    decrypt_data (encrypt_data "history" (derive_aes_key "right" (salt_for 9))
        (List.replicate 12 0)) (derive_aes_key "wrong" (salt_for 9)) = none ∧
    ((change_passphrase fmC2 "wrong" "newpass"
        (fun _ => List.replicate 12 1)).toOption.map
        (fun fm => load_snapshot_at_index fm 1)) = some none := by
  decide

/-- **C10**: immediately after `create_new_memento` (which writes the initial
empty snapshot), `current_index = 1`, the initial content sits in slot 1, slot
file 0 was never created, and `load_snapshot(-1)` returns `None`. -/
theorem create_new_memento_initial_state (memento_id : ℕ) :
    (create_new_memento memento_id).current_index = 1 ∧
    (create_new_memento memento_id).txt_files 1 = some "" ∧
    (create_new_memento memento_id).txt_files 0 = none ∧
    load_snapshot (create_new_memento memento_id) (-1) = none := by
  have h0 : (utf8Encode "").length = 0 := rfl
  have hadj : adjust_buffer_size (mkFileManager memento_id) 0 =
      mkFileManager memento_id := by
    unfold adjust_buffer_size
    rw [calculate_buffer_size_zero]
    simp [mkFileManager]
  have hcreate : create_new_memento memento_id =
      write_snapshot_at_index
        { mkFileManager memento_id with current_index := 1 } 1 "" [] := by
    unfold create_new_memento write_snapshot
    rw [h0, hadj]
    rfl
  rw [hcreate]
  unfold write_snapshot_at_index load_snapshot load_snapshot_at_index
  simp [mkFileManager]

theorem write_snapshot_at_index_current_index (fm : FileManager) (i : ℕ)
    (t : String) (nonce : List ℕ) :
    (write_snapshot_at_index fm i t nonce).current_index = fm.current_index := by
  unfold write_snapshot_at_index
  split
  · split <;> rfl
  · rfl

theorem write_snapshot_at_index_max_buffers (fm : FileManager) (i : ℕ)
    (t : String) (nonce : List ℕ) :
    (write_snapshot_at_index fm i t nonce).max_buffers = fm.max_buffers := by
  unfold write_snapshot_at_index
  split
  · split <;> rfl
  · rfl

theorem adjust_buffer_size_current_index (fm : FileManager) (sz : ℕ) :
    (adjust_buffer_size fm sz).current_index = fm.current_index := by
  unfold adjust_buffer_size
  dsimp only
  split_ifs <;> rfl

theorem adjust_buffer_size_max_buffers_pos (fm : FileManager) (sz : ℕ)
    (h : 0 < fm.max_buffers) : 0 < (adjust_buffer_size fm sz).max_buffers := by
  have h3 := three_le_calculate_buffer_size sz
  unfold adjust_buffer_size
  dsimp only
  split_ifs <;> (try dsimp only) <;> omega

theorem adjust_buffer_size_changed (fm : FileManager) (sz : ℕ)
    (h : (adjust_buffer_size fm sz).max_buffers ≠ fm.max_buffers) :
    2 ≤ fm.current_index ∧ fm.current_index < fm.max_buffers - 2 := by
  unfold adjust_buffer_size at h
  dsimp only at h
  split_ifs at h with h1 h2 h3 h4
  all_goals first
  | exact absurd rfl h
  | (push_neg at h2; omega)

/-- **C6**: `write_snapshot` preserves `current_index < max_buffers`, and the
capacity is changed by a write only when the old `current_index` was at least
2 and less than the old `max_buffers - 2`. -/
theorem write_snapshot_index_invariant (fm : FileManager) (text : String)
    (nonce : List ℕ) (h : fm.current_index < fm.max_buffers) :
    (write_snapshot fm text nonce).current_index <
      (write_snapshot fm text nonce).max_buffers ∧
    ((write_snapshot fm text nonce).max_buffers ≠ fm.max_buffers →
      2 ≤ fm.current_index ∧ fm.current_index < fm.max_buffers - 2) := by
  have hpos : 0 < (adjust_buffer_size fm (utf8Encode text).length).max_buffers :=
    adjust_buffer_size_max_buffers_pos fm _ (by omega)
  constructor
  · show (write_snapshot_at_index _ _ text nonce).current_index <
      (write_snapshot_at_index _ _ text nonce).max_buffers
    rw [write_snapshot_at_index_current_index, write_snapshot_at_index_max_buffers]
    exact Nat.mod_lt _ hpos
  · intro hne
    apply adjust_buffer_size_changed fm (utf8Encode text).length
    have hne' : (write_snapshot fm text nonce).max_buffers =
        (adjust_buffer_size fm (utf8Encode text).length).max_buffers := by
      show (write_snapshot_at_index _ _ text nonce).max_buffers = _
      rw [write_snapshot_at_index_max_buffers]
    rw [hne'] at hne
    exact hne

/-- Witness for **C6** at a concrete input. -/
theorem write_snapshot_index_invariant_witness :
    (mkFileManager 0).current_index < (mkFileManager 0).max_buffers ∧
    ((write_snapshot (mkFileManager 0) "a" []).current_index <
        (write_snapshot (mkFileManager 0) "a" []).max_buffers ∧
      ((write_snapshot (mkFileManager 0) "a" []).max_buffers ≠
          (mkFileManager 0).max_buffers →
        2 ≤ (mkFileManager 0).current_index ∧
          (mkFileManager 0).current_index < (mkFileManager 0).max_buffers - 2)) :=
  ⟨by decide, write_snapshot_index_invariant (mkFileManager 0) "a" [] (by decide)⟩

theorem adjust_buffer_size_noop (fm : FileManager) (sz : ℕ)
    (h : calculate_buffer_size sz = fm.max_buffers) :
    adjust_buffer_size fm sz = fm := by
  unfold adjust_buffer_size
  dsimp only
  rw [if_pos h]

/-- An unencrypted `write_snapshot` whose recomputed capacity equals the
current one: the state change is exactly "advance the index, store the text in
the new slot". -/
theorem write_snapshot_plain (fm : FileManager) (t : String)
    (henc : fm.is_encrypted = false)
    (h : calculate_buffer_size (utf8Encode t).length = fm.max_buffers) :
    write_snapshot fm t [] =
      { fm with
        current_index := (fm.current_index + 1) % fm.max_buffers
        txt_files := fun i =>
          if i = (fm.current_index + 1) % fm.max_buffers then some t
          else fm.txt_files i } := by
  unfold write_snapshot
  rw [adjust_buffer_size_noop fm _ h]
  unfold write_snapshot_at_index
  dsimp only
  rw [if_neg (by rw [henc]; exact Bool.false_ne_true)]

/-- Invariant of a run of no-resize unencrypted writes on a ring of capacity
`cap`, starting from a state that has performed `n` writes from index 0: the
index is `n % cap` and slot `j` holds a file exactly when some write
`i ∈ [1, n]` landed on it (`i % cap = j`). -/
theorem write_all_ring_spec (cap : ℕ) (hcap : 0 < cap) :
    ∀ (ts : List String) (fm : FileManager) (n : ℕ),
      fm.is_encrypted = false →
      fm.max_buffers = cap →
      fm.current_index = n % cap →
      (∀ j, (fm.txt_files j).isSome ↔
        j < cap ∧ ∃ i, 1 ≤ i ∧ i ≤ n ∧ i % cap = j) →
      (∀ t ∈ ts, calculate_buffer_size (utf8Encode t).length = cap) →
      (write_all fm ts).is_encrypted = false ∧
      (write_all fm ts).max_buffers = cap ∧
      (write_all fm ts).current_index = (n + ts.length) % cap ∧
      (∀ j, ((write_all fm ts).txt_files j).isSome ↔
        j < cap ∧ ∃ i, 1 ≤ i ∧ i ≤ n + ts.length ∧ i % cap = j) := by
  intro ts
  induction ts with
  | nil =>
    intro fm n henc hmax hidx hfiles _
    exact ⟨henc, hmax, by simpa [write_all] using hidx, by simpa [write_all] using hfiles⟩
  | cons t ts ih =>
    intro fm n henc hmax hidx hfiles hsz
    have hsz_t : calculate_buffer_size (utf8Encode t).length = fm.max_buffers := by
      rw [hmax]
      exact hsz t (List.mem_cons_self t ts)
    have hw := write_snapshot_plain fm t henc hsz_t
    have hfold : write_all fm (t :: ts) = write_all (write_snapshot fm t []) ts := rfl
    have hidx' : (write_snapshot fm t []).current_index = (n + 1) % cap := by
      rw [hw]
      dsimp only
      rw [hidx, hmax]
      exact Nat.mod_add_mod n cap 1
    have henc' : (write_snapshot fm t []).is_encrypted = false := by
      rw [hw]
      exact henc
    have hmax' : (write_snapshot fm t []).max_buffers = cap := by
      rw [hw]
      exact hmax
    have hfiles' : ∀ j, ((write_snapshot fm t []).txt_files j).isSome ↔
        j < cap ∧ ∃ i, 1 ≤ i ∧ i ≤ n + 1 ∧ i % cap = j := by
      intro j
      rw [hw]
      dsimp only
      rw [hidx, hmax, Nat.mod_add_mod n cap 1]
      by_cases hj : j = (n + 1) % cap
      · rw [if_pos hj]
        simp only [Option.isSome_some, true_iff]
        refine ⟨hj ▸ Nat.mod_lt _ hcap, n + 1, by omega, by omega, hj.symm⟩
      · rw [if_neg hj]
        rw [hfiles j]
        constructor
        · rintro ⟨hjcap, i, h1, h2, h3⟩
          exact ⟨hjcap, i, h1, by omega, h3⟩
        · rintro ⟨hjcap, i, h1, h2, h3⟩
          refine ⟨hjcap, i, h1, ?_, h3⟩
          rcases Nat.lt_or_ge i (n + 1) with hi | hi
          · omega
          · exfalso
            have : i = n + 1 := by omega
            exact hj (this ▸ h3).symm
    have hrest := ih (write_snapshot fm t []) (n + 1) henc' hmax' hidx' hfiles'
      (fun t' ht' => hsz t' (List.mem_cons_of_mem t ht'))
    rw [hfold]
    refine ⟨hrest.1, hrest.2.1, ?_, ?_⟩
    · rw [hrest.2.2.1]
      congr 1
      simp [List.length_cons]
      omega
    · intro j
      rw [hrest.2.2.2 j]
      constructor
      · rintro ⟨hjcap, i, h1, h2, h3⟩
        exact ⟨hjcap, i, h1, by simp [List.length_cons]; omega, h3⟩
      · rintro ⟨hjcap, i, h1, h2, h3⟩
        refine ⟨hjcap, i, h1, ?_, h3⟩
        simp [List.length_cons] at h2
        omega

theorem calculate_buffer_size_single_char :
    calculate_buffer_size (utf8Encode "a").length = 50 := by
  rw [show (utf8Encode "a").length = 1 from rfl]
  exact calculate_buffer_size_one

theorem calculate_buffer_size_small (n : ℕ) (h : n ≤ 1024) :
    calculate_buffer_size n = 50 := by
  rw [calculate_buffer_size_eq, max_eq_right h]
  decide

/-- The claim's concrete scenario, traced through the actual resize path:
writing "First".."Seventh" into a fresh capacity-5 ring first advances through
slots 1 and 2 (the index-within-2-of-a-boundary guard suppresses the resize),
then the third write grows the buffer to `calculate_buffer_size = 50` and the
remaining writes land in slots 3..7; the current snapshot is `"Seventh"` and
`load_snapshot(-1)` reads slot 6, `"Sixth"`. -/
theorem seven_writes_capacity_five :
    load_current_snapshot (write_all (mkFileManagerWithCapacity 0 5)
      ["First", "Second", "Third", "Fourth", "Fifth", "Sixth", "Seventh"]) =
      "Seventh" ∧
    load_snapshot (write_all (mkFileManagerWithCapacity 0 5)
      ["First", "Second", "Third", "Fourth", "Fifth", "Sixth", "Seventh"]) (-1) =
      some "Sixth" := by
  have l1 : (utf8Encode "First").length = 5 := rfl
  have l2 : (utf8Encode "Second").length = 6 := rfl
  have l3 : (utf8Encode "Third").length = 5 := rfl
  have l4 : (utf8Encode "Fourth").length = 6 := rfl
  have l5 : (utf8Encode "Fifth").length = 5 := rfl
  have l6 : (utf8Encode "Sixth").length = 5 := rfl
  have l7 : (utf8Encode "Seventh").length = 7 := rfl
  have c5 : calculate_buffer_size 5 = 50 := calculate_buffer_size_small 5 (by omega)
  have c6 : calculate_buffer_size 6 = 50 := calculate_buffer_size_small 6 (by omega)
  have c7 : calculate_buffer_size 7 = 50 := calculate_buffer_size_small 7 (by omega)
  constructor <;>
    simp [write_all, write_snapshot, adjust_buffer_size, write_snapshot_at_index,
      mkFileManagerWithCapacity, mkFileManager, load_current_snapshot,
      load_snapshot, load_snapshot_at_index, l1, l2, l3, l4, l5, l6, l7,
      c5, c6, c7]

/-- **C5**, amended: writing `capacity + k` snapshots into a fresh ring buffer
of fixed capacity (each write small enough that the recomputed capacity equals
the fixed one, so no resize fires) leaves exactly the `capacity` slot files
`0 .. capacity - 1` and `current_index = k % capacity` — not
`(k - 1) % capacity`: the first write already advances the index to 1.  The
claim's concrete corollary nevertheless holds on the code as written, resize
included: after writing `"First" .. "Seventh"` into a fresh capacity-5 ring
(which grows to 50 at the third write), `load_current_snapshot()` is
`"Seventh"` and `load_snapshot(-1)` is `"Sixth"`. -/
theorem ring_wraparound_amended (cap k : ℕ) (ts : List String) (hcap : 0 < cap)
    (hlen : ts.length = cap + k)
    (hsz : ∀ t ∈ ts, calculate_buffer_size (utf8Encode t).length = cap) :
    ((write_all (mkFileManagerWithCapacity 0 cap) ts).current_index = k % cap ∧
      ∀ j, ((write_all (mkFileManagerWithCapacity 0 cap) ts).txt_files j).isSome ↔
        j < cap) ∧
    (load_current_snapshot (write_all (mkFileManagerWithCapacity 0 5)
        ["First", "Second", "Third", "Fourth", "Fifth", "Sixth", "Seventh"]) =
        "Seventh" ∧
      load_snapshot (write_all (mkFileManagerWithCapacity 0 5)
        ["First", "Second", "Third", "Fourth", "Fifth", "Sixth", "Seventh"]) (-1) =
        some "Sixth") := by
  refine ⟨?_, seven_writes_capacity_five⟩
  have hfiles0 : ∀ j, ((mkFileManagerWithCapacity 0 cap).txt_files j).isSome ↔
      j < cap ∧ ∃ i, 1 ≤ i ∧ i ≤ 0 ∧ i % cap = j := by
    intro j
    simp only [mkFileManagerWithCapacity, mkFileManager, Option.isSome_none,
      Bool.false_eq_true, false_iff]
    rintro ⟨-, i, h1, h2, -⟩
    omega
  obtain ⟨-, -, hidx, hfiles⟩ :=
    write_all_ring_spec cap hcap ts (mkFileManagerWithCapacity 0 cap) 0
      rfl rfl rfl hfiles0 hsz
  constructor
  · rw [hidx, hlen, Nat.zero_add]
    exact Nat.add_mod_left cap k
  · intro j
    rw [hfiles j]
    constructor
    · rintro ⟨hj, -⟩
      exact hj
    · intro hj
      refine ⟨hj, ?_⟩
      by_cases hj0 : j = 0
      · exact ⟨cap, by omega, by omega, by simp [hj0, Nat.mod_self]⟩
      · exact ⟨j, by omega, by omega, Nat.mod_eq_of_lt hj⟩

/-- Witness for the amended **C5** at a concrete input: a fresh capacity-50
ring, `52 = 50 + 2` single-character writes (plus the capacity-5 corollary the
theorem carries). -/
theorem ring_wraparound_amended_witness :
    (0 < 50 ∧ (List.replicate 52 "a").length = 50 + 2 ∧
      ∀ t ∈ List.replicate 52 "a",
        calculate_buffer_size (utf8Encode t).length = 50) ∧
    (((write_all (mkFileManagerWithCapacity 0 50)
        (List.replicate 52 "a")).current_index = 2 % 50 ∧
      ∀ j, ((write_all (mkFileManagerWithCapacity 0 50)
        (List.replicate 52 "a")).txt_files j).isSome ↔ j < 50) ∧
      (load_current_snapshot (write_all (mkFileManagerWithCapacity 0 5)
          ["First", "Second", "Third", "Fourth", "Fifth", "Sixth", "Seventh"]) =
          "Seventh" ∧
        load_snapshot (write_all (mkFileManagerWithCapacity 0 5)
          ["First", "Second", "Third", "Fourth", "Fifth", "Sixth", "Seventh"]) (-1) =
          some "Sixth")) :=
  ⟨⟨by omega, by simp,
    fun t ht => by rw [List.eq_of_mem_replicate ht]
                   exact calculate_buffer_size_single_char⟩,
   ring_wraparound_amended 50 2 (List.replicate 52 "a") (by omega) (by simp)
     (fun t ht => by rw [List.eq_of_mem_replicate ht]
                     exact calculate_buffer_size_single_char)⟩

/-- **C5**, counterexample to the claim as stated: with a fresh ring of fixed
capacity `50` and `52 = 50 + 2` writes (no resize fires), the final
`current_index` is `2 % 50 = 2`, not `(k - 1) mod capacity = (2 - 1) % 50 = 1`
as the claim's formula requires. -/
theorem ring_wraparound_counterexample :
    ¬ ((write_all (mkFileManagerWithCapacity 0 50)
        (List.replicate 52 "a")).current_index = (2 - 1) % 50) := by
  have hfiles0 : ∀ j, ((mkFileManagerWithCapacity 0 50).txt_files j).isSome ↔
      j < 50 ∧ ∃ i, 1 ≤ i ∧ i ≤ 0 ∧ i % 50 = j := by
    intro j
    simp only [mkFileManagerWithCapacity, mkFileManager, Option.isSome_none,
      Bool.false_eq_true, false_iff]
    rintro ⟨-, i, h1, h2, -⟩
    omega
  obtain ⟨-, -, hidx, -⟩ :=
    write_all_ring_spec 50 (by omega) (List.replicate 52 "a")
      (mkFileManagerWithCapacity 0 50) 0 rfl rfl rfl hfiles0
      (fun t ht => by rw [List.eq_of_mem_replicate ht]
                      exact calculate_buffer_size_single_char)
  rw [hidx]
  simp

theorem getD_mem_of_lt {l : List ℕ} {i d : ℕ} (h : i < l.length) :
    l.getD i d ∈ l := by
  rw [List.getD_eq_getElem l d h]
  exact List.getElem_mem h

theorem find_threshold_index_lt (avg : ℚ) (l : List ℕ) (hl : 0 < l.length) :
    find_threshold_index avg l < l.length := by
  unfold find_threshold_index
  dsimp only
  have hle : (l.takeWhile (fun t : ℕ => decide ((t : ℚ) ≤ avg))).length ≤ l.length :=
    (List.takeWhile_sublist _).length_le
  split_ifs <;> omega

theorem adjust_threshold_inv (s : IdleSaver) (h : SaverInv s) :
    SaverInv (adjust_threshold s) := by
  obtain ⟨h1, h2⟩ := h
  unfold adjust_threshold
  dsimp only
  split_ifs with hlen hne
  · exact ⟨h1, h2⟩
  · refine ⟨h1, ?_⟩
    dsimp only
    rw [h1]
    exact getD_mem_of_lt (find_threshold_index_lt _ _ (by decide))
  · exact ⟨h1, h2⟩

theorem record_session_inv (s : IdleSaver) (sess : ℕ × ℚ) (h : SaverInv s) :
    SaverInv (record_session s sess) := by
  unfold record_session
  dsimp only
  split_ifs with htrim
  · exact adjust_threshold_inv _ ⟨h.1, h.2⟩
  · exact adjust_threshold_inv _ ⟨h.1, h.2⟩

theorem trigger_save_inv (s : IdleSaver) (reason : String) (now : ℚ)
    (h : SaverInv s) : SaverInv (trigger_save s reason now).fst := by
  unfold trigger_save
  dsimp only
  repeat' split
  all_goals first
  | exact ⟨h.1, h.2⟩
  | exact record_session_inv _ _ ⟨h.1, h.2⟩

theorem update_inv (s : IdleSaver) (b : Bool) (now : ℚ) (h : SaverInv s) :
    SaverInv (s.update b now).fst := by
  unfold IdleSaver.update
  dsimp only
  repeat' split
  all_goals first
  | exact ⟨h.1, h.2⟩
  | exact trigger_save_inv _ _ _ ⟨h.1, h.2⟩

theorem on_idle_timeout_inv (s : IdleSaver) (now : ℚ) (h : SaverInv s) :
    SaverInv (on_idle_timeout s now).fst := by
  unfold on_idle_timeout
  dsimp only
  repeat' split
  all_goals first
  | exact trigger_save_inv _ _ _ ⟨h.1, h.2⟩
  | exact trigger_save_inv _ _ _ (record_session_inv _ _ ⟨h.1, h.2⟩)

theorem saverStep_inv (p : IdleSaver × List String) (e : SaverEvent)
    (h : SaverInv p.fst) : SaverInv (saverStep p e).fst := by
  cases e with
  | start => exact ⟨h.1, h.2⟩
  | stop => exact ⟨h.1, h.2⟩
  | edit b t => exact update_inv _ _ _ ⟨h.1, h.2⟩
  | idleTimeout t => exact on_idle_timeout_inv _ _ ⟨h.1, h.2⟩

theorem foldl_saverStep_inv (es : List SaverEvent) :
    ∀ p : IdleSaver × List String,
      SaverInv p.fst → SaverInv (es.foldl saverStep p).fst := by
  induction es with
  | nil => exact fun p h => h
  | cons e es ih => exact fun p h => ih (saverStep p e) (saverStep_inv p e h)

/-- **C8**, amended: the autosave character threshold starts at 2 and, after
any sequence of scheduler events, is always one of the table
`CHAR_COUNT_THRESHOLDS = [2, 4, 8, 16, 32, 64]`; it moves only through the
typing-session analysis of `_adjust_threshold` (which requires at least 3
recorded sessions), not by a fixed `+2` step per threshold-triggered save. -/
theorem saver_threshold_invariant :
    mkIdleSaver.char_threshold = 2 ∧
    ∀ es : List SaverEvent,
      (runSaver es).fst.char_threshold ∈ ([2, 4, 8, 16, 32, 64] : List ℕ) := by
  constructor
  · rfl
  · intro es
    exact (foldl_saverStep_inv es (mkIdleSaver, []) ⟨rfl, by decide⟩).2

/-- **C8**, counterexample to the claim as stated: start the saver and type
two characters (at times 0 and 0); the second character reaches the starting
threshold 2 and triggers exactly one `"character count"` save, after which the
threshold is still 2 — not `min (2 + 2 * 1) 20 = 4`. -/
theorem threshold_unchanged_after_first_save :
    (runSaver [SaverEvent.start, SaverEvent.edit true 0,
        SaverEvent.edit true 0]).snd = ["character count"] ∧
    (runSaver [SaverEvent.start, SaverEvent.edit true 0,
        SaverEvent.edit true 0]).fst.char_threshold = 2 ∧
    (2 : ℕ) ≠ min (2 + 2 * 1) 20 := by
  refine ⟨?_, ?_, by decide⟩
  · simp [runSaver, saverStep, mkIdleSaver, IdleSaver.start, IdleSaver.update,
      trigger_save, record_session, adjust_threshold, INITIAL_CHAR_THRESHOLD,
      CHAR_COUNT_THRESHOLDS]
  · simp [runSaver, saverStep, mkIdleSaver, IdleSaver.start, IdleSaver.update,
      trigger_save, record_session, adjust_threshold, INITIAL_CHAR_THRESHOLD,
      CHAR_COUNT_THRESHOLDS]
